import Mathlib

/-!
Verification development for the MyHS HTTP file server (`src/main.rs`).

The development shallowly embeds the request-handling core of the server:
path joining and the containment ("starts_with") check of `serve_handler`
and `upload_handler`, the MIME table `guess_content_type`, the size
formatter `format_file_size`, the entry ordering of
`generate_directory_listing`, the header construction of `serve_file`,
and the multipart scanning/writing loops of `upload_handler`.

Filesystem paths are modelled at the level of `std::path` components on
Unix: a path is a list of components, where `RootDir` may occur only at
the front of an absolute path, `..` is kept as a `ParentDir` component
(Rust's `Path` does not resolve it), and `.` / empty segments are dropped
(Rust's `Components` iterator normalises them away, except for a leading
`.` which cannot arise in any path this program builds, since every path
it compares or writes is produced by `join` on the absolute server root).
Filesystem effects (reads, writes, directory enumeration) are abstracted
as explicit inputs or oracles; all claims below are about the pure
request-processing logic in between.
-/

namespace MyHS

/-- One `std::path` component (Unix): the root directory, a `..` segment,
or a named segment. `.` segments do not appear (see module docstring). -/
inductive Comp where
  | rootDir
  | parentDir
  | normal (s : String)
deriving DecidableEq, Repr

/-- A filesystem path as its component sequence, as produced by Rust's
`Path::components()` on Unix. -/
abbrev RPath := List Comp

/-- Split a character list at `'/'` separators (accumulator holds the
current segment reversed). Models the segment structure of a Unix path
string. -/
def splitSlashAux : List Char → List Char → List (List Char)
  | cur, [] => [cur.reverse]
  | cur, c :: rest =>
    if c = '/' then cur.reverse :: splitSlashAux [] rest
    else splitSlashAux (c :: cur) rest

def splitSlash (cs : List Char) : List (List Char) :=
  splitSlashAux [] cs

/-- The non-root components of a path string: empty and `.` segments are
dropped, `..` becomes `ParentDir`, anything else is a `Normal` component.
This is Rust's `Components` normalisation on Unix. -/
def parseSegs (s : String) : List Comp :=
  (splitSlash s.toList).filterMap fun seg =>
    if seg = [] then none
    else if seg = ['.'] then none
    else if seg = ['.', '.'] then some Comp.parentDir
    else some (Comp.normal (String.mk seg))

/-- Parse a path string into its component sequence; a leading `'/'`
yields a `RootDir` component (Rust `Path::has_root` / `is_absolute` on
Unix). -/
def parsePath (s : String) : RPath :=
  (match s.toList with
   | '/' :: _ => [Comp.rootDir]
   | _ => []) ++ parseSegs s

/-- Whether a path is absolute (Unix: begins with the root component). -/
def isAbsolute (p : RPath) : Bool :=
  match p with
  | Comp.rootDir :: _ => true
  | _ => false

/-- Rust `PathBuf::join`: an absolute argument replaces the whole path,
otherwise its components are appended. No `..` resolution happens. -/
def rustJoin (base p : RPath) : RPath :=
  if isAbsolute p then p else base ++ p

/-- Rust `Path::starts_with`: `base` must be a prefix of `p` considered
as whole components (never a raw string prefix). -/
def rustStartsWith (p base : RPath) : Bool :=
  List.isPrefixOf base p

/-- Rust `Path::file_name`: the final component if it is a `Normal`
component, `none` if the path ends in `..` or is the root. -/
def fileNameOf (p : RPath) : Option String :=
  match p.getLast? with
  | some (Comp.normal s) => some s
  | _ => none

/-- Lexical resolution of `..` components, as the operating system
resolves the path (absent symlinks): a `..` cancels the preceding named
component, and `/..` is `/`. This is not code of the program; it
formalises the claims' phrase "the joined path resolves outside the
server root". The accumulator holds the resolved components reversed. -/
def normAux : List Comp → List Comp → List Comp
  | acc, [] => acc.reverse
  | _, Comp.rootDir :: rest => normAux [Comp.rootDir] rest
  | acc, Comp.parentDir :: rest =>
    match acc with
    | Comp.normal _ :: acc2 => normAux acc2 rest
    | [Comp.rootDir] => normAux acc rest
    | _ => normAux (Comp.parentDir :: acc) rest
  | acc, c :: rest => normAux (c :: acc) rest

def normalizeComps (p : RPath) : RPath :=
  normAux [] p

/-! ## `serve_handler`: path resolution and the containment check -/

/-- `serve_handler`, lines 95-100: the requested filesystem path is the
server root itself for an empty captured path, else `base_dir.join(path)`. -/
def requestedPathOf (base : RPath) (pathStr : String) : RPath :=
  if pathStr = "" then base else rustJoin base (parsePath pathStr)

/-- Outcome of the security check of `serve_handler` (lines 102-105):
either the 403 rejection, or the handler proceeds to the filesystem
(`exists()`, then directory listing or file read) with the joined path. -/
inductive ServeDecision where
  | forbidden
  | proceed (requestedPath : RPath)
deriving DecidableEq, Repr

/-- The pre-filesystem part of `serve_handler`: join, then reject with
403 unless the joined path starts with the root component-wise. Every
filesystem access of the handler happens only in the `proceed` case. -/
def serve_check (base : RPath) (pathStr : String) : ServeDecision :=
  let rp := requestedPathOf base pathStr
  if rustStartsWith rp base then ServeDecision.proceed rp
  else ServeDecision.forbidden

/-! ## `guess_content_type` (lines 691-714) -/

/-- Split a file name at its last `'.'`: returns the characters before
and after the last dot, or `none` when no dot occurs. -/
def splitAtLastDot : List Char → Option (List Char × List Char)
  | [] => none
  | c :: rest =>
    match splitAtLastDot rest with
    | some (pre, post) => some (c :: pre, post)
    | none => if c = '.' then some ([], rest) else none

/-- Rust `Path::extension` on a file name: the portion after the last
`'.'`, except that a name with no dot, or whose only dot is leading
(`".gitignore"`), has no extension. -/
def rustExtension (name : String) : Option String :=
  match splitAtLastDot name.toList with
  | some (pre, post) => if pre = [] then none else some (String.mk post)
  | none => none

/-- The fixed extension table of `guess_content_type`, arm for arm; the
Rust `match` on string literals is an in-order equality chain. -/
def mimeLookup : Option String → String
  | none => "application/octet-stream"
  | some e =>
    if e = "html" ∨ e = "htm" then "text/html; charset=utf-8"
    else if e = "css" then "text/css; charset=utf-8"
    else if e = "js" then "application/javascript; charset=utf-8"
    else if e = "json" then "application/json; charset=utf-8"
    else if e = "xml" then "application/xml; charset=utf-8"
    else if e = "txt" then "text/plain; charset=utf-8"
    else if e = "md" then "text/markdown; charset=utf-8"
    else if e = "png" then "image/png"
    else if e = "jpg" ∨ e = "jpeg" then "image/jpeg"
    else if e = "gif" then "image/gif"
    else if e = "svg" then "image/svg+xml"
    else if e = "ico" then "image/x-icon"
    else if e = "pdf" then "application/pdf"
    else if e = "zip" then "application/zip"
    else if e = "tar" then "application/x-tar"
    else if e = "gz" then "application/gzip"
    else if e = "mp4" then "video/mp4"
    else if e = "mp3" then "audio/mpeg"
    else if e = "wav" then "audio/wav"
    else "application/octet-stream"

/-- `guess_content_type`: `file_path.extension()` looked up in the fixed
table; `extension()` is `file_name()` followed by the last-dot split. -/
def guess_content_type (p : RPath) : String :=
  mimeLookup ((fileNameOf p).bind rustExtension)

/-- The extensions the table of `guess_content_type` lists. -/
def mimeKeys : List String :=
  ["html", "htm", "css", "js", "json", "xml", "txt", "md", "png",
   "jpg", "jpeg", "gif", "svg", "ico", "pdf", "zip", "tar", "gz",
   "mp4", "mp3", "wav"]

/-! ## `serve_file` (lines 562-579) and the file branch of
`serve_handler` (lines 117-123) -/

/-- The response `serve_file` builds on success: the content-type header,
the optional content-disposition header, and the full body bytes. -/
structure FileResponse where
  contentType : String
  contentDisposition : Option String
  body : List Nat
deriving DecidableEq, Repr

/-- `serve_file`: `fs::read` either fails (`none`) or yields the file's
bytes, which become the body unaltered; content-type comes from
`guess_content_type`; the content-disposition header is set exactly when
`file_name()` is `Some`. The read outcome is the explicit input
`readResult`. -/
def serve_file (readResult : Option (List Nat)) (p : RPath) :
    Option FileResponse :=
  match readResult with
  | none => none
  | some contents =>
    some ⟨guess_content_type p,
      (fileNameOf p).map (fun n => "inline; filename=\"" ++ n ++ "\""),
      contents⟩

/-- What the file branch of `serve_handler` returns: the `serve_file`
response, or the 500 response `"无法读取文件"` when `serve_file` failed. -/
inductive ServeFileOutcome where
  | ok (r : FileResponse)
  | internalError (msg : String)
deriving DecidableEq, Repr

/-- Lines 117-123 of `serve_handler`: `Err` from `serve_file` becomes an
internal-server-error response, never a partial body. -/
def serve_file_branch (readResult : Option (List Nat)) (p : RPath) :
    ServeFileOutcome :=
  match serve_file readResult p with
  | some r => ServeFileOutcome.ok r
  | none => ServeFileOutcome.internalError "无法读取文件"

/-! ## `generate_directory_listing` (lines 127-229): entry ordering -/

/-- One directory entry as the enumeration loop reads it: name, the
metadata flags and length, and the optional formatted mtime. -/
structure DirEntry where
  name : String
  is_dir : Bool
  is_file : Bool
  len : Nat
  modified : Option String
deriving DecidableEq, Repr

/-- The `FileInfo` struct of the source (lines 22-27). -/
structure FileInfo where
  name : String
  is_dir : Bool
  size : Option Nat
  modified : Option String
deriving DecidableEq, Repr

/-- Lines 140-147: the `FileInfo` built for one entry; `size` is present
only for regular files. -/
def toFileInfo (e : DirEntry) : FileInfo :=
  ⟨e.name, e.is_dir, if e.is_file then some e.len else none, e.modified⟩

/-- Byte/codepoint lexicographic `≤` on character lists; structural, so
that it evaluates. Agrees with Rust's `str::cmp` (UTF-8 byte order equals
codepoint order). -/
def charListLe : List Char → List Char → Bool
  | [], _ => true
  | _ :: _, [] => false
  | a :: as, b :: bs =>
    if a.toNat = b.toNat then charListLe as bs
    else decide (a.toNat < b.toNat)

/-- The comparator of the two `sort_by(|a, b| a.name.cmp(&b.name))`
calls, as a boolean `≤`. -/
def nameLe (a b : FileInfo) : Bool :=
  charListLe a.name.toList b.name.toList

/-- Lines 132-158 and 202-229: entries are partitioned into directories
and files in arrival order, each group is stably sorted by name
ascending, and the emitted rows walk the directories first, then the
files. The value is the emission order of the entries. -/
def listingEntries (entries : List DirEntry) : List FileInfo :=
  let infos := entries.map toFileInfo
  let dirs := infos.filter (fun i => i.is_dir)
  let files := infos.filter (fun i => !i.is_dir)
  dirs.mergeSort nameLe ++ files.mergeSort nameLe

/-- `generate_directory_listing` at the I/O boundary: the `fs::read_dir`
enumeration (with the `?`-propagated per-entry metadata reads) either
fails as a whole (`none`, mapped by the caller to a 500) or yields the
entry list, from which the listing is built. -/
def generate_directory_listing (readDirResult : Option (List DirEntry)) :
    Option (List FileInfo) :=
  readDirResult.map listingEntries

/-! ## `format_file_size` (lines 582-597) -/

/-- The `UNITS` table of the source. -/
def UNITS : List String := ["B", "KB", "MB", "GB", "TB"]

/-- The division loop of `format_file_size`, tracking only the unit
index: after `i` steps the running `f64` is exactly `size / 1024 ^ i`
(each division by 1024 is exact in binary floating point, and `size as
f64` is exact below `2 ^ 53`), so the loop guard `size >= 1024.0` is
`1024 ^ (i + 1) ≤ size`. The fuel starts at 4 and encodes the guard
`unit_index < UNITS.len() - 1`. -/
def unitIndexAux (size : Nat) : Nat → Nat → Nat
  | 0, i => i
  | fuel + 1, i =>
    if 1024 ^ (i + 1) ≤ size then unitIndexAux size fuel (i + 1) else i

def unitIndex (size : Nat) : Nat :=
  unitIndexAux size 4 0

/-- Round `n / d` to the nearest integer, ties to even: the rounding
Rust's `{:.1}` formatting applies to the (exactly represented) scaled
value, here applied to its count of tenths. -/
def roundHalfEven (n d : Nat) : Nat :=
  let q := n / d
  let r := n % d
  if 2 * r < d then q
  else if d < 2 * r then q + 1
  else if q % 2 = 0 then q else q + 1

/-- `format_file_size`: unit index 0 renders the byte count with no
decimal (`"{} {}"` on `size as u64`); otherwise `"{:.1} {}"` renders the
scaled value with exactly one decimal digit, obtained by rounding
`10 * size / 1024 ^ i` half-to-even. -/
def format_file_size (size : Nat) : String :=
  let i := unitIndex size
  if i = 0 then toString size ++ " B"
  else
    let t := roundHalfEven (10 * size) (1024 ^ i)
    toString (t / 10) ++ "." ++ toString (t % 10) ++ " " ++ UNITS.getD i "B"

/-! ## `upload_handler` (lines 600-688) -/

/-- One multipart part as the handler observes it: the field name
(`field.name().unwrap_or_default()`), the original file name when the
part carries one, and the outcomes of the two fallible body reads the
handler may perform on it (`field.text()` for the destination field,
`field.bytes()` for file parts); `none` is the `Err` case. -/
structure Part where
  name : String
  fileName : Option String
  text : Option String
  bytes : Option (List Nat)
deriving DecidableEq, Repr

/-- Lines 609-618, the destination-scanning loop: consume parts until
one named `current_path` whose `text()` succeeds, returning its text and
the unconsumed remainder; a failed `text()` on a `current_path` part
does not break the loop. If no such part arrives, every part is consumed
and the captured path stays `""`. -/
def scanPath : List Part → String × List Part
  | [] => ("", [])
  | f :: rest =>
    if f.name = "current_path" then
      match f.text with
      | some s => (s, rest)
      | none => scanPath rest
    else scanPath rest

/-- The accounting state of the upload loop: `total_files`,
`success_count`, the paths at which `File::create` was attempted, and the
fully completed writes (path and bytes), both in arrival order. -/
structure UploadTotals where
  total : Nat
  success : Nat
  attempts : List RPath
  writes : List (RPath × List Nat)
deriving DecidableEq, Repr

/-- Lines 633-656, the file-writing loop. For each part named `file`
carrying a file name, `total_files` increments; if its bytes decode, the
destination is `target_dir.join(file_name)` (the name used verbatim) and
`File::create` is attempted there; `success_count` increments exactly
when create and `write_all` both succeed, which the oracle `writeOk`
decides. No failure stops the loop. -/
def processFiles (writeOk : RPath → Bool) (target : RPath) :
    List Part → UploadTotals
  | [] => ⟨0, 0, [], []⟩
  | p :: rest =>
    let r := processFiles writeOk target rest
    if p.name = "file" then
      match p.fileName with
      | some fname =>
        match p.bytes with
        | some data =>
          let fp := rustJoin target (parsePath fname)
          if writeOk fp then
            ⟨r.total + 1, r.success + 1, fp :: r.attempts, (fp, data) :: r.writes⟩
          else ⟨r.total + 1, r.success, fp :: r.attempts, r.writes⟩
        | none => ⟨r.total + 1, r.success, r.attempts, r.writes⟩
      | none => r
    else r

/-- Lines 620-625: the upload destination, `base_dir` itself for an empty
captured path, else `base_dir.join(current_path)`. -/
def uploadTarget (base : RPath) (parts : List Part) : RPath :=
  let cp := (scanPath parts).1
  if cp = "" then base else rustJoin base (parsePath cp)

/-- The HTTP response of `upload_handler`: status code, optional
`Location` header, body string. -/
structure UploadResponse where
  status : Nat
  location : Option String
  body : String
deriving DecidableEq, Repr

/-- `upload_handler`: scan for `current_path`, compute and containment-
check the destination (403 before any write on failure), process the
remaining parts, then redirect (303) to the original directory with the
accounting message of lines 665-687. The pair also exposes the final
accounting state. -/
def upload_handler (writeOk : RPath → Bool) (base : RPath)
    (parts : List Part) : UploadResponse × UploadTotals :=
  let scanned := scanPath parts
  let current_path := scanned.1
  let rest := scanned.2
  let target_dir := uploadTarget base parts
  if rustStartsWith target_dir base then
    let tot := processFiles writeOk target_dir rest
    let redirect_path :=
      if current_path = "" then "/" else "/" ++ current_path
    let message :=
      if 0 < tot.success then
        if tot.success = tot.total then
          if tot.total = 1 then "文件上传成功"
          else "所有" ++ toString tot.total ++ "个文件上传成功"
        else
          toString tot.total ++ "个文件中的" ++ toString tot.success
            ++ "个上传成功"
      else "文件上传失败"
    (⟨303, some redirect_path, message⟩, tot)
  else
    (⟨403, none, "访问被拒绝"⟩, ⟨0, 0, [], []⟩)

/-! ## Helper lemmas -/

theorem charListLe_trans :
    ∀ a b c, charListLe a b = true → charListLe b c = true →
      charListLe a c = true
  | [], _, _, _, _ => rfl
  | _ :: _, [], _, h1, _ => by simp [charListLe] at h1
  | _ :: _, _ :: _, [], _, h2 => by simp [charListLe] at h2
  | x :: xs, y :: ys, z :: zs, h1, h2 => by
    simp only [charListLe] at h1 h2 ⊢
    by_cases hxy : x.toNat = y.toNat
    · rw [if_pos hxy] at h1
      by_cases hyz : y.toNat = z.toNat
      · rw [if_pos hyz] at h2
        rw [if_pos (hxy.trans hyz)]
        exact charListLe_trans xs ys zs h1 h2
      · rw [if_neg hyz, decide_eq_true_iff] at h2
        have hxz : ¬ x.toNat = z.toNat := by omega
        rw [if_neg hxz, decide_eq_true_iff]
        omega
    · rw [if_neg hxy, decide_eq_true_iff] at h1
      by_cases hyz : y.toNat = z.toNat
      · have hxz : ¬ x.toNat = z.toNat := by omega
        rw [if_neg hxz, decide_eq_true_iff]
        omega
      · rw [if_neg hyz, decide_eq_true_iff] at h2
        have hxz : ¬ x.toNat = z.toNat := by omega
        rw [if_neg hxz, decide_eq_true_iff]
        omega

theorem charListLe_total :
    ∀ a b, (charListLe a b || charListLe b a) = true
  | [], _ => by simp [charListLe]
  | _ :: _, [] => by simp [charListLe]
  | x :: xs, y :: ys => by
    simp only [charListLe]
    by_cases hxy : x.toNat = y.toNat
    · simp only [hxy, if_pos, if_true]
      simpa using charListLe_total xs ys
    · have hyx : ¬ y.toNat = x.toNat := fun h => hxy h.symm
      rw [if_neg hxy, if_neg hyx]
      simp only [Bool.or_eq_true, decide_eq_true_iff]
      omega

theorem nameLe_trans (a b c : FileInfo) (h1 : nameLe a b = true)
    (h2 : nameLe b c = true) : nameLe a c = true :=
  charListLe_trans _ _ _ h1 h2

theorem nameLe_total (a b : FileInfo) : (nameLe a b || nameLe b a) = true :=
  charListLe_total _ _

/-- A part counts toward `total_files` iff it is named `file` and carries
a file name (lines 636-638). -/
def isFilePart (p : Part) : Bool :=
  p.name == "file" && p.fileName.isSome

/-- A part counts toward `success_count` iff it is a file part whose
bytes decode and whose write at `target.join(filename)` fully completes
(lines 641-651). -/
def isWrittenPart (writeOk : RPath → Bool) (target : RPath) (p : Part) :
    Bool :=
  p.name == "file" && p.fileName.isSome && p.bytes.isSome &&
    writeOk (rustJoin target (parsePath (p.fileName.getD "")))

theorem processFiles_total_countP (writeOk : RPath → Bool) (target : RPath) :
    ∀ parts : List Part,
      (processFiles writeOk target parts).total = parts.countP isFilePart
  | [] => rfl
  | p :: rest => by
    have ih := processFiles_total_countP writeOk target rest
    rcases p with ⟨n, fn, tx, bs⟩
    by_cases hn : n = "file"
    · cases fn with
      | none => simp [processFiles, List.countP_cons, isFilePart, hn, ih]
      | some f =>
        cases bs with
        | none => simp [processFiles, List.countP_cons, isFilePart, hn, ih]
        | some d =>
          by_cases hw : writeOk (rustJoin target (parsePath f)) <;>
            simp [processFiles, List.countP_cons, isFilePart, hn, hw, ih]
    · simp [processFiles, List.countP_cons, isFilePart, hn, ih]

theorem processFiles_success_countP (writeOk : RPath → Bool) (target : RPath) :
    ∀ parts : List Part,
      (processFiles writeOk target parts).success
        = parts.countP (isWrittenPart writeOk target)
  | [] => rfl
  | p :: rest => by
    have ih := processFiles_success_countP writeOk target rest
    rcases p with ⟨n, fn, tx, bs⟩
    by_cases hn : n = "file"
    · cases fn with
      | none => simp [processFiles, List.countP_cons, isWrittenPart, hn, ih]
      | some f =>
        cases bs with
        | none => simp [processFiles, List.countP_cons, isWrittenPart, hn, ih]
        | some d =>
          by_cases hw : writeOk (rustJoin target (parsePath f)) <;>
            simp [processFiles, List.countP_cons, isWrittenPart, hn, hw, ih]
    · simp [processFiles, List.countP_cons, isWrittenPart, hn, ih]

theorem processFiles_append (writeOk : RPath → Bool) (target : RPath) :
    ∀ xs ys : List Part,
      processFiles writeOk target (xs ++ ys)
        = ⟨(processFiles writeOk target xs).total
              + (processFiles writeOk target ys).total,
           (processFiles writeOk target xs).success
              + (processFiles writeOk target ys).success,
           (processFiles writeOk target xs).attempts
              ++ (processFiles writeOk target ys).attempts,
           (processFiles writeOk target xs).writes
              ++ (processFiles writeOk target ys).writes⟩
  | [], ys => by simp [processFiles]
  | p :: xs, ys => by
    have ih := processFiles_append writeOk target xs ys
    rcases p with ⟨n, fn, tx, bs⟩
    by_cases hn : n = "file"
    · cases fn with
      | none => simpa [processFiles, hn] using ih
      | some f =>
        cases bs with
        | none =>
          simp [processFiles, hn, ih, UploadTotals.mk.injEq]
          omega
        | some d =>
          by_cases hw : writeOk (rustJoin target (parsePath f)) <;>
            simp [processFiles, hn, hw, ih, UploadTotals.mk.injEq] <;> omega
    · simpa [processFiles, hn] using ih

theorem processFiles_attempts_mono (writeOk : RPath → Bool) (target : RPath)
    (p : Part) (rest : List Part) (x : RPath)
    (hx : x ∈ (processFiles writeOk target rest).attempts) :
    x ∈ (processFiles writeOk target (p :: rest)).attempts := by
  rcases p with ⟨n, fn, tx, bs⟩
  by_cases hn : n = "file"
  · cases fn with
    | none => simpa [processFiles, hn] using hx
    | some f =>
      cases bs with
      | none => simpa [processFiles, hn] using hx
      | some d =>
        by_cases hw : writeOk (rustJoin target (parsePath f)) <;>
          simp [processFiles, hn, hw] <;> exact Or.inr hx
  · simpa [processFiles, hn] using hx

theorem processFiles_writes_mono (writeOk : RPath → Bool) (target : RPath)
    (p : Part) (rest : List Part) (x : RPath × List Nat)
    (hx : x ∈ (processFiles writeOk target rest).writes) :
    x ∈ (processFiles writeOk target (p :: rest)).writes := by
  rcases p with ⟨n, fn, tx, bs⟩
  by_cases hn : n = "file"
  · cases fn with
    | none => simpa [processFiles, hn] using hx
    | some f =>
      cases bs with
      | none => simpa [processFiles, hn] using hx
      | some d =>
        by_cases hw : writeOk (rustJoin target (parsePath f))
        · simp [processFiles, hn, hw]
          exact Or.inr hx
        · simpa [processFiles, hn, hw] using hx
  · simpa [processFiles, hn] using hx

theorem scanPath_skip (pre : List Part)
    (hpre : ∀ q ∈ pre, q.name = "current_path" → q.text = none) :
    ∀ tail : List Part, scanPath (pre ++ tail) = scanPath tail := by
  induction pre with
  | nil => intro tail; rfl
  | cons q pre ih =>
    intro tail
    have hq := hpre q (List.mem_cons_self q pre)
    have hpre' : ∀ r ∈ pre, r.name = "current_path" → r.text = none :=
      fun r hr => hpre r (List.mem_cons_of_mem q hr)
    by_cases hn : q.name = "current_path"
    · have ht : q.text = none := hq hn
      simp [scanPath, hn, ht, ih hpre']
    · simp [scanPath, hn, ih hpre']

theorem upload_handler_congr (writeOk : RPath → Bool) (base : RPath)
    (parts1 parts2 : List Part) (h : scanPath parts1 = scanPath parts2) :
    upload_handler writeOk base parts1 = upload_handler writeOk base parts2 := by
  simp only [upload_handler, uploadTarget, h]

theorem unitIndexAux_ge (size : Nat) :
    ∀ fuel i, i ≤ unitIndexAux size fuel i
  | 0, i => Nat.le_refl i
  | fuel + 1, i => by
    simp only [unitIndexAux]
    split
    · exact Nat.le_trans (Nat.le_succ i) (unitIndexAux_ge size fuel (i + 1))
    · exact Nat.le_refl i

theorem unitIndexAux_le (size : Nat) :
    ∀ fuel i, unitIndexAux size fuel i ≤ i + fuel
  | 0, i => by simp [unitIndexAux]
  | fuel + 1, i => by
    simp only [unitIndexAux]
    split
    · have := unitIndexAux_le size fuel (i + 1); omega
    · omega

theorem unitIndex_le_four (size : Nat) : unitIndex size ≤ 4 := by
  have := unitIndexAux_le size 4 0
  simpa [unitIndex] using this

theorem unitIndexAux_unfold (size fuel i : Nat) :
    unitIndexAux size (fuel + 1) i
      = if 1024 ^ (i + 1) ≤ size then unitIndexAux size fuel (i + 1) else i :=
  rfl

theorem unitIndex_eq_zero (size : Nat) (h : size < 1024) :
    unitIndex size = 0 := by
  have hc : ¬ 1024 ^ (0 + 1) ≤ size := by
    simpa using Nat.not_le.mpr h
  rw [unitIndex, show (4 : Nat) = 3 + 1 from rfl, unitIndexAux_unfold,
    if_neg hc]

theorem unitIndex_pos (size : Nat) (h : 1024 ≤ size) : 1 ≤ unitIndex size := by
  have hc : 1024 ^ (0 + 1) ≤ size := by simpa using h
  rw [unitIndex, show (4 : Nat) = 3 + 1 from rfl, unitIndexAux_unfold,
    if_pos hc]
  exact unitIndexAux_ge size 3 1

/-! ## Claim theorems -/

/-- C1 (code bug, demonstrated): the claim says a GET whose path contains
`..` segments and resolves outside the server root is answered 403 with no
filesystem access. The code instead joins without resolving `..` and then
compares raw component sequences, so `..` passes the `starts_with`
containment check: at root `/srv/root` and request path `../secret.txt`
the path contains a `..` segment, resolves to `/srv/secret.txt` — outside
the root — and yet `serve_check` proceeds to the filesystem instead of
returning the 403 rejection. -/
theorem C1_dotdot_traversal_not_rejected :
    Comp.parentDir ∈ parseSegs "../secret.txt"
    ∧ rustStartsWith
        (normalizeComps
          (requestedPathOf (parsePath "/srv/root") "../secret.txt"))
        (parsePath "/srv/root") = false
    ∧ normalizeComps (requestedPathOf (parsePath "/srv/root") "../secret.txt")
        = [Comp.rootDir, Comp.normal "srv", Comp.normal "secret.txt"]
    ∧ serve_check (parsePath "/srv/root") "../secret.txt"
        = ServeDecision.proceed
            (parsePath "/srv/root"
              ++ [Comp.parentDir, Comp.normal "secret.txt"]) :=
  ⟨by decide, by decide, by decide, by decide⟩

/-- C2: whenever the upload destination (root joined with the captured
`current_path`) fails the containment check against the root, the upload
handler answers the whole request with the 403 response, and no file
creation is attempted and nothing is written before that rejection. -/
theorem C2_upload_escape_rejected_before_writes
    (writeOk : RPath → Bool) (base : RPath) (parts : List Part)
    (h : rustStartsWith (uploadTarget base parts) base = false) :
    (upload_handler writeOk base parts).1 = ⟨403, none, "访问被拒绝"⟩
    ∧ (upload_handler writeOk base parts).2.attempts = []
    ∧ (upload_handler writeOk base parts).2.writes = [] := by
  refine ⟨?_, ?_, ?_⟩ <;> simp [upload_handler, h]

/-- C2 witness: an absolute `current_path` of `/etc` against root `/srv`
fails the containment check; the handler returns 403 with no creation
attempts and no writes although a decodable file part follows. -/
theorem C2_upload_escape_rejected_before_writes_w :
    (upload_handler (fun _ => true) (parsePath "/srv")
        [⟨"current_path", none, some "/etc", none⟩,
         ⟨"file", some "a.txt", none, some [1, 2]⟩]).1
      = ⟨403, none, "访问被拒绝"⟩
    ∧ (upload_handler (fun _ => true) (parsePath "/srv")
        [⟨"current_path", none, some "/etc", none⟩,
         ⟨"file", some "a.txt", none, some [1, 2]⟩]).2.attempts = []
    ∧ (upload_handler (fun _ => true) (parsePath "/srv")
        [⟨"current_path", none, some "/etc", none⟩,
         ⟨"file", some "a.txt", none, some [1, 2]⟩]).2.writes = [] :=
  C2_upload_escape_rejected_before_writes _ _ _ (by decide)

/-- C3: the containment check compares whole path components: whenever the
root's component sequence is not a prefix of the joined path's component
sequence, the serve handler's check rejects. The witness shows the sibling
case of the claim: a joined path that merely extends the root's name as a
raw string (`/base` versus `/base2/x`) is rejected. -/
theorem C3_componentwise_containment (base : RPath) (pathStr : String)
    (h : List.isPrefixOf base (requestedPathOf base pathStr) = false) :
    serve_check base pathStr = ServeDecision.forbidden := by
  simp [serve_check, rustStartsWith, h]

/-- C3 witness: `/base` is a raw string prefix of `/base2/x`, yet the check
rejects the request, because the component `base2` does not match the
component `base`. -/
theorem C3_componentwise_containment_w :
    List.isPrefixOf "/base".toList "/base2/x".toList = true
    ∧ serve_check (parsePath "/base") "/base2/x" = ServeDecision.forbidden :=
  ⟨by decide,
   C3_componentwise_containment (parsePath "/base") "/base2/x" (by decide)⟩

/-- C4: upload batch accounting. Total-files counts exactly the parts named
`file` that carry a filename; the success count counts exactly those whose
bytes decode and whose write fully completes; processing distributes over
list append, so a decode or write failure of one part does not abort the
remaining parts; and concretely a batch of 3 file parts of which 1 fails to
write yields the `2 of 3 uploaded` message and a 303 redirect to the
original directory. -/
theorem C4_upload_accounting :
    (∀ (writeOk : RPath → Bool) (target : RPath) (parts : List Part),
        (processFiles writeOk target parts).total = parts.countP isFilePart
        ∧ (processFiles writeOk target parts).success
            = parts.countP (isWrittenPart writeOk target))
    ∧ (∀ (writeOk : RPath → Bool) (target : RPath) (xs ys : List Part),
        processFiles writeOk target (xs ++ ys)
          = ⟨(processFiles writeOk target xs).total
                + (processFiles writeOk target ys).total,
             (processFiles writeOk target xs).success
                + (processFiles writeOk target ys).success,
             (processFiles writeOk target xs).attempts
                ++ (processFiles writeOk target ys).attempts,
             (processFiles writeOk target xs).writes
                ++ (processFiles writeOk target ys).writes⟩)
    ∧ (upload_handler
          (fun p =>
            decide (p ≠ rustJoin (parsePath "/srv/d") (parsePath "b.txt")))
          (parsePath "/srv")
          [⟨"current_path", none, some "d", none⟩,
           ⟨"file", some "a.txt", none, some [1, 2]⟩,
           ⟨"file", some "b.txt", none, some [3]⟩,
           ⟨"file", some "c.txt", none, some [4]⟩]).1
        = ⟨303, some "/d", "3个文件中的2个上传成功"⟩
    ∧ (upload_handler
          (fun p =>
            decide (p ≠ rustJoin (parsePath "/srv/d") (parsePath "b.txt")))
          (parsePath "/srv")
          [⟨"current_path", none, some "d", none⟩,
           ⟨"file", some "a.txt", none, some [1, 2]⟩,
           ⟨"file", some "b.txt", none, some [3]⟩,
           ⟨"file", some "c.txt", none, some [4]⟩]).2.total = 3
    ∧ (upload_handler
          (fun p =>
            decide (p ≠ rustJoin (parsePath "/srv/d") (parsePath "b.txt")))
          (parsePath "/srv")
          [⟨"current_path", none, some "d", none⟩,
           ⟨"file", some "a.txt", none, some [1, 2]⟩,
           ⟨"file", some "b.txt", none, some [3]⟩,
           ⟨"file", some "c.txt", none, some [4]⟩]).2.success = 2 :=
  ⟨fun writeOk target parts =>
      ⟨processFiles_total_countP writeOk target parts,
       processFiles_success_countP writeOk target parts⟩,
   fun writeOk target xs ys => processFiles_append writeOk target xs ys,
   by decide, by decide, by decide⟩

/-- C5: for a resolved file whose read succeeds, the served response body
is the file's byte sequence unaltered, the content type is the MIME
classifier's answer, and the content-disposition header is
`inline; filename="<basename>"` for the file's base name; a read error
yields the 500 response instead of any body. -/
theorem C5_file_transmission (p : RPath) (b : String)
    (hb : fileNameOf p = some b) (contents : List Nat) :
    serve_file_branch (some contents) p
      = ServeFileOutcome.ok
          ⟨guess_content_type p,
           some ("inline; filename=\"" ++ b ++ "\""), contents⟩
    ∧ serve_file_branch none p
        = ServeFileOutcome.internalError "无法读取文件" := by
  constructor
  · simp [serve_file_branch, serve_file, hb]
  · rfl

/-- C5 witness: serving `/srv/notes.txt` with bytes `[104, 105]` produces
exactly those bytes, the `text/plain` content type, and the inline
disposition with the basename; a failed read produces the 500 response. -/
theorem C5_file_transmission_w :
    serve_file_branch (some [104, 105]) (parsePath "/srv/notes.txt")
      = ServeFileOutcome.ok
          ⟨guess_content_type (parsePath "/srv/notes.txt"),
           some ("inline; filename=\"" ++ "notes.txt" ++ "\""), [104, 105]⟩
    ∧ serve_file_branch none (parsePath "/srv/notes.txt")
        = ServeFileOutcome.internalError "无法读取文件" :=
  C5_file_transmission (parsePath "/srv/notes.txt") "notes.txt"
    (by decide) [104, 105]

/-- C6: the emitted listing order is the directory entries sorted ascending
by name followed by the file entries sorted ascending by name (codepoint
order, which is UTF-8 byte order), each group a permutation of the
corresponding partition of the scanned entries; and an empty directory
lists as zero entries with no error. -/
theorem C6_listing_order (es : List DirEntry) :
    (∃ ds fs, listingEntries es = ds ++ fs
      ∧ ds.Perm ((es.map toFileInfo).filter (fun i => i.is_dir))
      ∧ fs.Perm ((es.map toFileInfo).filter (fun i => !i.is_dir))
      ∧ ds.Pairwise (fun a b => nameLe a b = true)
      ∧ fs.Pairwise (fun a b => nameLe a b = true))
    ∧ generate_directory_listing (some []) = some [] := by
  constructor
  · refine ⟨_, _, rfl, List.mergeSort_perm _ _, List.mergeSort_perm _ _,
      ?_, ?_⟩
    · exact List.sorted_mergeSort nameLe_trans nameLe_total _
    · exact List.sorted_mergeSort nameLe_trans nameLe_total _
  · simp [generate_directory_listing, listingEntries]

/-- C7 counterexample: the claim says the table lookup is keyed by the
lowercased extension, so `photo.PNG` should get `image/png`; the code never
lowercases, and `photo.PNG` gets the generic binary type while `photo.png`
gets `image/png`. -/
theorem C7_uppercase_not_lowercased :
    guess_content_type (parsePath "photo.PNG") = "application/octet-stream"
    ∧ guess_content_type (parsePath "photo.png") = "image/png"
    ∧ guess_content_type (parsePath "photo.PNG")
        ≠ guess_content_type (parsePath "photo.png") :=
  ⟨by decide, by decide, by decide⟩

/-- C7 (amended): the MIME classifier is a pure lookup keyed by the file
extension exactly as written (case-sensitive): each listed lowercase
extension maps to its table entry, an unknown or missing extension maps to
the generic binary type, and an uppercase spelling of a listed extension is
treated as unknown and also maps to the generic binary type. -/
theorem C7_case_sensitive_table (p : RPath) :
    ((fileNameOf p).bind rustExtension = none →
        guess_content_type p = "application/octet-stream")
    ∧ (∀ e, (fileNameOf p).bind rustExtension = some e → e ∉ mimeKeys →
        guess_content_type p = "application/octet-stream")
    ∧ (mimeLookup (some "html") = "text/html; charset=utf-8"
      ∧ mimeLookup (some "htm") = "text/html; charset=utf-8"
      ∧ mimeLookup (some "css") = "text/css; charset=utf-8"
      ∧ mimeLookup (some "js") = "application/javascript; charset=utf-8"
      ∧ mimeLookup (some "json") = "application/json; charset=utf-8"
      ∧ mimeLookup (some "xml") = "application/xml; charset=utf-8"
      ∧ mimeLookup (some "txt") = "text/plain; charset=utf-8"
      ∧ mimeLookup (some "md") = "text/markdown; charset=utf-8"
      ∧ mimeLookup (some "png") = "image/png"
      ∧ mimeLookup (some "jpg") = "image/jpeg"
      ∧ mimeLookup (some "jpeg") = "image/jpeg"
      ∧ mimeLookup (some "gif") = "image/gif"
      ∧ mimeLookup (some "svg") = "image/svg+xml"
      ∧ mimeLookup (some "ico") = "image/x-icon"
      ∧ mimeLookup (some "pdf") = "application/pdf"
      ∧ mimeLookup (some "zip") = "application/zip"
      ∧ mimeLookup (some "tar") = "application/x-tar"
      ∧ mimeLookup (some "gz") = "application/gzip"
      ∧ mimeLookup (some "mp4") = "video/mp4"
      ∧ mimeLookup (some "mp3") = "audio/mpeg"
      ∧ mimeLookup (some "wav") = "audio/wav")
    ∧ mimeLookup (some "PNG") = "application/octet-stream" := by
  refine ⟨?_, ?_, by decide, by decide⟩
  · intro h
    simp [guess_content_type, h, mimeLookup]
  · intro e he hk
    simp only [mimeKeys, List.mem_cons, List.not_mem_nil, or_false] at hk
    push_neg at hk
    obtain ⟨h1, h2, h3, h4, h5, h6, h7, h8, h9, h10, h11, h12, h13, h14,
      h15, h16, h17, h18, h19, h20, h21⟩ := hk
    simp [guess_content_type, he, mimeLookup, h1, h2, h3, h4, h5, h6, h7,
      h8, h9, h10, h11, h12, h13, h14, h15, h16, h17, h18, h19, h20, h21]

/-- C7 witness: a file with no extension is classified as the generic
binary type through the missing-extension case of the amended claim. -/
theorem C7_case_sensitive_table_w :
    (fileNameOf (parsePath "README")).bind rustExtension = none
    ∧ guess_content_type (parsePath "README") = "application/octet-stream" :=
  ⟨by decide, (C7_case_sensitive_table (parsePath "README")).1 (by decide)⟩

/-- C8: the size formatter maps 0, 1023, 1024, 1536 and 1024² to `0 B`,
`1023 B`, `1.0 KB`, `1.5 KB` and `1.0 MB`; for every byte count the unit
index never exceeds the TB entry, counts below 1024 render as the plain
integer with no decimal, and counts of at least 1024 render as a scaled
value with exactly one decimal digit. -/
theorem C8_format_file_size (size : Nat) :
    format_file_size 0 = "0 B"
    ∧ format_file_size 1023 = "1023 B"
    ∧ format_file_size 1024 = "1.0 KB"
    ∧ format_file_size 1536 = "1.5 KB"
    ∧ format_file_size (1024 * 1024) = "1.0 MB"
    ∧ unitIndex size ≤ 4
    ∧ (size < 1024 → format_file_size size = toString size ++ " B")
    ∧ (1024 ≤ size →
        1 ≤ unitIndex size
        ∧ format_file_size size
            = toString (roundHalfEven (10 * size) (1024 ^ unitIndex size) / 10)
              ++ "."
              ++ toString (roundHalfEven (10 * size) (1024 ^ unitIndex size) % 10)
              ++ " " ++ UNITS.getD (unitIndex size) "B"
        ∧ roundHalfEven (10 * size) (1024 ^ unitIndex size) % 10 < 10) := by
  refine ⟨by decide, by decide, by decide, by decide, by decide,
    unitIndex_le_four size, ?_, ?_⟩
  · intro h
    simp [format_file_size, unitIndex_eq_zero size h]
  · intro h
    have h1 := unitIndex_pos size h
    have h0 : ¬ unitIndex size = 0 := by omega
    exact ⟨h1, by simp [format_file_size, h0],
      Nat.mod_lt _ (by norm_num)⟩

/-- C8 witness: 2048 bytes are at least 1024, the loop leaves unit B, and
the rendering is `2.0 KB` — one decimal digit. -/
theorem C8_format_file_size_w :
    1 ≤ unitIndex 2048 ∧ format_file_size 2048 = "2.0 KB" :=
  ⟨((C8_format_file_size 2048).2.2.2.2.2.2.2 (by decide)).1, by decide⟩

/-- C9: every processed file part's destination is the validated target
directory joined with the client-supplied filename used verbatim — the
create attempt happens at exactly `target.join(filename)` for an arbitrary
filename, with no rejection or stripping of separators or `..`; the
completed write lands at the same path. -/
theorem C9_filename_verbatim (writeOk : RPath → Bool) (target : RPath)
    (parts : List Part) (q : Part) (f : String) (d : List Nat)
    (hmem : q ∈ parts) (hn : q.name = "file") (hf : q.fileName = some f)
    (hd : q.bytes = some d) :
    rustJoin target (parsePath f)
      ∈ (processFiles writeOk target parts).attempts
    ∧ (writeOk (rustJoin target (parsePath f)) = true →
        (rustJoin target (parsePath f), d)
          ∈ (processFiles writeOk target parts).writes) := by
  induction parts with
  | nil => cases hmem
  | cons p rest ih =>
    rcases List.mem_cons.mp hmem with rfl | hmem2
    · constructor
      · by_cases hw : writeOk (rustJoin target (parsePath f)) <;>
          simp [processFiles, hn, hf, hd, hw]
      · intro hw
        simp [processFiles, hn, hf, hd, hw]
    · have h2 := ih hmem2
      exact ⟨processFiles_attempts_mono _ _ _ _ _ h2.1,
        fun hw => processFiles_writes_mono _ _ _ _ _ (h2.2 hw)⟩

/-- C9 witness: a filename of `../evil.txt` is joined verbatim: the create
attempt is at `/srv/d/../evil.txt`, the `..` preserved, not stripped. -/
theorem C9_filename_verbatim_w :
    rustJoin (parsePath "/srv/d") (parsePath "../evil.txt")
      ∈ (processFiles (fun _ => true) (parsePath "/srv/d")
          [⟨"file", some "../evil.txt", none, some [7]⟩]).attempts
    ∧ rustJoin (parsePath "/srv/d") (parsePath "../evil.txt")
        = [Comp.rootDir, Comp.normal "srv", Comp.normal "d",
           Comp.parentDir, Comp.normal "evil.txt"] :=
  ⟨(C9_filename_verbatim (fun _ => true) (parsePath "/srv/d")
      [⟨"file", some "../evil.txt", none, some [7]⟩]
      ⟨"file", some "../evil.txt", none, some [7]⟩ "../evil.txt" [7]
      (by simp) rfl rfl rfl).1,
   by decide⟩

/-- C10: when the multipart body is some prefix of parts none of which is a
`current_path` field with decodable text, then a `current_path` part, then a
suffix, the scanning loop consumes and discards the whole prefix: the
handler's entire outcome — writes, counts, and the redirect message —
equals that of the request without the prefix, so file parts arriving
before `current_path` are neither written nor counted. -/
theorem C10_parts_before_current_path_discarded
    (writeOk : RPath → Bool) (base : RPath) (pre : List Part) (cp : Part)
    (post : List Part) (s : String)
    (hpre : ∀ q ∈ pre, q.name = "current_path" → q.text = none)
    (hname : cp.name = "current_path") (htext : cp.text = some s) :
    scanPath (pre ++ cp :: post) = (s, post)
    ∧ upload_handler writeOk base (pre ++ cp :: post)
        = upload_handler writeOk base (cp :: post) := by
  have hscan : scanPath (pre ++ cp :: post) = scanPath (cp :: post) :=
    scanPath_skip pre hpre (cp :: post)
  have hcp : scanPath (cp :: post) = (s, post) := by
    simp [scanPath, hname, htext]
  exact ⟨hscan.trans hcp, upload_handler_congr _ _ _ _ hscan⟩

/-- C10 witness: a decodable file part placed before `current_path` changes
nothing about the handler's outcome, and in particular total-files-seen
stays 0 — the early file part was consumed and discarded, not uploaded. -/
theorem C10_parts_before_current_path_discarded_w :
    upload_handler (fun _ => true) (parsePath "/srv")
        [⟨"file", some "x.txt", none, some [9]⟩,
         ⟨"current_path", none, some "", none⟩]
      = upload_handler (fun _ => true) (parsePath "/srv")
          [⟨"current_path", none, some "", none⟩]
    ∧ (upload_handler (fun _ => true) (parsePath "/srv")
        [⟨"file", some "x.txt", none, some [9]⟩,
         ⟨"current_path", none, some "", none⟩]).2.total = 0 :=
  ⟨(C10_parts_before_current_path_discarded (fun _ => true) (parsePath "/srv")
      [⟨"file", some "x.txt", none, some [9]⟩]
      ⟨"current_path", none, some "", none⟩ [] ""
      (by decide) rfl rfl).2,
   by decide⟩

end MyHS
